import Mathlib

/-!
Verification of the FreelanceFlow invoicing core.

This file gives a shallow embedding of the data model and the operations of
the FreelanceFlow repository (a freelancer invoicing CRUD application) and
proves properties of them:

* the rate calculator (`calculateTotal` in
  `client/src/pages/projects/ProjectDetail.tsx`),
* the invoice-generation handler (`handleGenerateInvoice`, same file),
* the workday toggle (`toggleWorkdayMutation` plus the server workday
  routes, backed by `createWorkday` / `deleteWorkday` in the storage layer),
* the invoice-numbering allocator (`DatabaseStorage.getNextInvoiceNumber`
  and `MemStorage.getNextInvoiceNumber` in `server/storage.ts`),
* invoice creation and status update (`DatabaseStorage.createInvoice`,
  `updateInvoiceStatus`),
* client deletion (`DatabaseStorage.deleteClient`, `MemStorage.deleteClient`),
* the PDF text layout (`generateInvoicePDF` in `server/pdf.ts` together with
  the `GET /api/invoices/:id/pdf` route in `server/routes.ts`).

Conventions of the embedding:

* Calendar dates are represented by their stored string form `YYYY-MM-DD`;
  the client compares dates via `Date.toDateString()`, which on date-only
  values agrees with equality of the stored strings.
* Monetary amounts are integers in minor units (cents), as in the schema
  (`rate`/`amount` are `integer` columns).
* JavaScript `String(n)` for a natural number is embedded by `natChars`,
  `padStart(3, '0')` by `padChars 3`.
* Database timestamps (`createdAt`) are bookkeeping the claims never touch
  and are omitted from the record types.
-/

/-! ### Data model (shared/schema.ts) -/

/-- A row of the `clients` table. -/
structure Client where
  id : Nat
  companyName : String
  contactPerson : Option String
  emails : List String
  billingEmail : String
  phone : Option String
  address : Option String
  notes : Option String
deriving DecidableEq

/-- A row of the `projects` table.  `type` is the billing mode string,
`"daily_rate"` or `"fixed_price"`; `rate` is in minor currency units. -/
structure Project where
  id : Nat
  name : String
  clientId : Nat
  type : String
  rate : Int
  startDate : Option String
  endDate : Option String
  status : String
  description : Option String
deriving DecidableEq

/-- A row of the `workdays` table; `date` is the stored `YYYY-MM-DD` string. -/
structure Workday where
  id : Nat
  projectId : Nat
  date : String
deriving DecidableEq

/-- A row of the `invoices` table. -/
structure Invoice where
  id : Nat
  invoiceNumber : String
  projectId : Nat
  clientId : Nat
  amount : Int
  status : String
  invoiceDate : String
  dueDate : String
  workdaysIds : List Nat
  notes : Option String
deriving DecidableEq

/-- The relational storage state: the four business tables. -/
structure StorageState where
  clients : List Client
  projects : List Project
  workdays : List Workday
  invoices : List Invoice
deriving DecidableEq

/-! ### Decimal rendering of JavaScript numbers -/

/-- Little-endian decimal digits of `n`, with explicit fuel so the kernel can
reduce the recursion (`fuel ≥ n` suffices). -/
def natCharsAux : Nat → Nat → List Char
  | 0, _ => []
  | _ + 1, 0 => []
  | fuel + 1, n + 1 => Nat.digitChar ((n + 1) % 10) :: natCharsAux fuel ((n + 1) / 10)

/-- Decimal digit characters of `n`, most significant first; the embedding of
JavaScript `String(n)` / `Number.prototype.toString` for a natural number. -/
def natChars (n : Nat) : List Char :=
  if n = 0 then ['0'] else (natCharsAux n n).reverse

/-- `String.prototype.padStart(k, "0")` on a character list. -/
def padChars (k : Nat) (cs : List Char) : List Char :=
  List.replicate (k - cs.length) '0' ++ cs

/-- Numeric value of a big-endian list of decimal digit characters; the
embedding of `parseInt(s, 10)` on an all-digit string. -/
def natOfDigits (cs : List Char) : Nat :=
  cs.foldl (fun a c => 10 * a + (c.toNat - 48)) 0

/-! ### Invoice numbering (server/storage.ts)

`DatabaseStorage.getNextInvoiceNumber` fetches the invoice with the highest
`id`, runs the regular expression `/INV-\d+-(\d+)/` against its number, and
returns `INV-<currentYear>-<String(parsed + 1).padStart(3, "0")>` (or
sequence 1 when there is no previous invoice, its number is empty, or the
pattern does not match). -/

/-- Split a leading run of decimal digits off a character list (the behaviour
of a greedy `\d+` at the current position). -/
def spanDigits : List Char → List Char × List Char
  | [] => ([], [])
  | c :: cs =>
    if c.isDigit then
      let p := spanDigits cs
      (c :: p.1, p.2)
    else ([], c :: cs)

/-- Try to match `INV-\d+-(\d+)` at the head of the character list, returning
the captured trailing digit group.  Greedy `\d+` followed by `-` needs no
backtracking: any shorter digit run is followed by a digit, never by `-`. -/
def matchInvAt : List Char → Option (List Char)
  | 'I' :: 'N' :: 'V' :: '-' :: rest =>
    let p1 := spanDigits rest
    if p1.1 = [] then none
    else
      match p1.2 with
      | '-' :: rest2 =>
        let p2 := spanDigits rest2
        if p2.1 = [] then none else some p2.1
      | _ => none
  | _ => none

/-- Search for the leftmost match of `INV-\d+-(\d+)` anywhere in the string,
as `String.prototype.match` does, returning the captured group. -/
def searchInv : List Char → Option (List Char)
  | [] => none
  | c :: cs =>
    match matchInvAt (c :: cs) with
    | some d => some d
    | none => searchInv cs

/-- The allocator's output format: `INV-<year>-<seq padded to width 3>`. -/
def mkInvoiceNumber (year seq : Nat) : String :=
  String.mk ('I' :: 'N' :: 'V' :: '-' :: (natChars year ++ '-' :: padChars 3 (natChars seq)))

/-- `DatabaseStorage.getNextInvoiceNumber`, as a function of the invoice with
the highest id (`orderBy(desc(invoices.id)).limit(1)`) and of the calendar
year read from the clock at allocation time. -/
def getNextInvoiceNumber (latest : Option Invoice) (year : Nat) : String :=
  let nextNum : Nat :=
    match latest with
    | some inv =>
      if inv.invoiceNumber ≠ "" then
        match searchInv inv.invoiceNumber.toList with
        | some ds => natOfDigits ds + 1
        | none => 1
      else 1
    | none => 1
  String.mk ('I' :: 'N' :: 'V' :: '-' :: (natChars year ++ '-' :: padChars 3 (natChars nextNum)))

/-- The in-memory storage variant of the server state: its invoice map plus
the private `invoiceCount` counter. -/
structure MemStorageState where
  invoices : List Invoice
  invoiceCount : Nat
deriving DecidableEq

/-- `MemStorage.getNextInvoiceNumber`: returns
`INV-<year>-<String(invoiceCount).padStart(3, "0")>` and post-increments the
private counter; the latest invoice's number is never consulted. -/
def memGetNextInvoiceNumber (year : Nat) (st : MemStorageState) : String × MemStorageState :=
  (String.mk ('I' :: 'N' :: 'V' :: '-' :: (natChars year ++ '-' :: padChars 3 (natChars st.invoiceCount))),
   { st with invoiceCount := st.invoiceCount + 1 })

/-- The invoice with the highest internal id, i.e. the result of
`orderBy(desc(invoices.id)).limit(1)`. -/
def latestInvoice (l : List Invoice) : Option Invoice :=
  l.foldl
    (fun acc i =>
      match acc with
      | none => some i
      | some j => if j.id < i.id then some i else some j)
    none

/-! ### Rate calculator and invoice generation (ProjectDetail.tsx) -/

/-- The invoice payload the client posts to `POST /api/invoices`. -/
structure CreateInvoiceInput where
  projectId : Nat
  clientId : Nat
  amount : Int
  invoiceDate : String
  dueDate : String
  workdaysIds : List Nat
  notes : String
deriving DecidableEq

/-- `calculateTotal` from `ProjectDetail.tsx`: 0 when no project is loaded;
`rate * selectedDays.length` for a `daily_rate` project; the bare rate
otherwise. -/
def calculateTotal (project : Option Project) (selectedDays : List String) : Int :=
  match project with
  | none => 0
  | some p =>
    if p.type = "daily_rate" then p.rate * selectedDays.length
    else p.rate

/-- `handleGenerateInvoice` from `ProjectDetail.tsx`: returns `none` when
project or client is missing or when a `daily_rate` project has an empty
selection (the handler shows a "select at least one workday" toast and
aborts without posting anything); otherwise the posted invoice payload.
`invoiceDate` and `dueDate` are the clock-derived strings. -/
def handleGenerateInvoice (project : Option Project) (client : Option Client)
    (workdays : List Workday) (selectedDays : List String)
    (invoiceDate dueDate : String) : Option CreateInvoiceInput :=
  match project, client with
  | some p, some c =>
    if p.type = "daily_rate" ∧ selectedDays.length = 0 then none
    else
      some
        { projectId := p.id
          clientId := c.id
          amount := calculateTotal (some p) selectedDays
          invoiceDate := invoiceDate
          dueDate := dueDate
          workdaysIds :=
            (workdays.filter (fun w => selectedDays.any (fun d => d = w.date))).map (fun w => w.id)
          notes := "Invoice for " ++ p.name }
  | _, _ => none

/-! ### The workday toggle

`handleDayClick` posts the clicked date to `toggleWorkdayMutation`, which
looks the date up in the project's workdays: if a workday with that date
exists it is deleted (`DELETE /api/workdays/:id`, i.e. `deleteWorkday` by
id), otherwise a new workday row is created (`POST /api/workdays`, i.e.
`createWorkday`, which assigns the next fresh id and appends).  The store
below is the slice of server state the toggle touches: the project's
workday rows plus the id counter. -/

structure WorkdayStore where
  rows : List Workday
  nextId : Nat
deriving DecidableEq

/-- One toggle of date `d` for project `pid`. -/
def toggleWorkday (s : WorkdayStore) (pid : Nat) (d : String) : WorkdayStore :=
  match s.rows.find? (fun w => w.date = d) with
  | some w => { s with rows := s.rows.filter (fun x => x.id ≠ w.id) }
  | none =>
    { rows := s.rows ++ [{ id := s.nextId, projectId := pid, date := d }]
      nextId := s.nextId + 1 }

/-- The dates currently marked as workdays, in row order (this is what the
client's `selectedDays` is initialised from). -/
def storeDates (s : WorkdayStore) : List String :=
  s.rows.map (fun w => w.date)

/-- The set of dates currently marked as workdays. -/
def storeDateSet (s : WorkdayStore) : Finset String :=
  (storeDates s).toFinset

/-- Well-formedness of the workday store: row ids are distinct, dates are
distinct (one workday per date, as the toggle maintains), and the id counter
is fresh. -/
def StoreOK (s : WorkdayStore) : Prop :=
  (s.rows.map (fun w => w.id)).Nodup ∧ (s.rows.map (fun w => w.date)).Nodup ∧
    ∀ w ∈ s.rows, w.id < s.nextId

/-- Toggling a date on the date-set level: remove it if present, insert it
if absent. -/
def toggleDateSet (d : String) (S : Finset String) : Finset String :=
  if d ∈ S then S.erase d else insert d S

/-! ### Invoice creation and status update (server/storage.ts) -/

/-- The insert payload of the `invoices` table (`InsertInvoice`);
`invoiceNumber` is optional in `createInvoice`, which allocates one when the
field is JavaScript-falsy. -/
structure InsertInvoice where
  invoiceNumber : Option String
  projectId : Nat
  clientId : Nat
  amount : Int
  status : String
  invoiceDate : String
  dueDate : String
  workdaysIds : List Nat
  notes : Option String
deriving DecidableEq

/-- JavaScript truthiness of an optional string: `undefined`/`null` and the
empty string are falsy. -/
def jsTruthy : Option String → Bool
  | none => false
  | some s => !(s = "")

/-- The id the database serial assigns to the next inserted invoice. -/
def nextInvoiceId (l : List Invoice) : Nat :=
  (l.foldl (fun a i => max a i.id) 0) + 1

/-- `DatabaseStorage.createInvoice`: allocate a number via
`getNextInvoiceNumber` when the supplied one is falsy (absent or empty),
then insert the row; returns the new state and the inserted invoice. -/
def createInvoice (st : StorageState) (year : Nat) (inp : InsertInvoice) :
    StorageState × Invoice :=
  let number :=
    if jsTruthy inp.invoiceNumber then inp.invoiceNumber.getD ""
    else getNextInvoiceNumber (latestInvoice st.invoices) year
  let newInv : Invoice :=
    { id := nextInvoiceId st.invoices
      invoiceNumber := number
      projectId := inp.projectId
      clientId := inp.clientId
      amount := inp.amount
      status := inp.status
      invoiceDate := inp.invoiceDate
      dueDate := inp.dueDate
      workdaysIds := inp.workdaysIds
      notes := inp.notes }
  ({ st with invoices := st.invoices ++ [newInv] }, newInv)

/-- `updateInvoiceStatus`: `update(invoices).set({ status }).where(eq(id))` --
only the `status` column of the matching row is written; returns the new
state and the updated row, `none` when the id does not exist. -/
def updateInvoiceStatus (st : StorageState) (id : Nat) (status : String) :
    StorageState × Option Invoice :=
  match st.invoices.find? (fun i => i.id = id) with
  | none => (st, none)
  | some inv =>
    ({ st with
        invoices := st.invoices.map (fun i => if i.id = id then { i with status := status } else i) },
     some { inv with status := status })

/-! ### Client deletion (server/storage.ts) -/

/-- `DatabaseStorage.deleteProject` (the version `deleteClient` calls):
delete the project's workdays, then the project row. -/
def deleteProjectDB (st : StorageState) (pid : Nat) : StorageState :=
  { st with
      workdays := st.workdays.filter (fun w => w.projectId ≠ pid)
      projects := st.projects.filter (fun p => p.id ≠ pid) }

/-- `DatabaseStorage.deleteClient`: delete each of the client's projects via
`deleteProject` (removing their workdays), then every invoice with this
`clientId`, then the client row. -/
def deleteClientDB (st : StorageState) (cid : Nat) : StorageState :=
  let clientProjects := st.projects.filter (fun p => p.clientId = cid)
  let st1 := clientProjects.foldl (fun s p => deleteProjectDB s p.id) st
  let st2 := { st1 with invoices := st1.invoices.filter (fun i => i.clientId ≠ cid) }
  { st2 with clients := st2.clients.filter (fun c => c.id ≠ cid) }

/-- `MemStorage.deleteClient`: `this.clients.delete(id)` -- only the client
row is removed; projects, workdays and invoices are not touched.  Returns
whether the client existed. -/
def memDeleteClient (st : StorageState) (cid : Nat) : StorageState × Bool :=
  ({ st with clients := st.clients.filter (fun c => c.id ≠ cid) },
   st.clients.any (fun c => c.id = cid))

/-! ### Display formatting (shared/utils.ts)

`formatDate` parses the ISO date string and renders it as `MMMM d, yyyy`;
`formatCurrency` divides the integer minor units by 100 and renders an
`en-US` USD amount with thousands separators and two decimals. -/

/-- English month name of a 1-based month, as `date-fns` `MMMM`. -/
def monthName : Nat → String
  | 1 => "January"
  | 2 => "February"
  | 3 => "March"
  | 4 => "April"
  | 5 => "May"
  | 6 => "June"
  | 7 => "July"
  | 8 => "August"
  | 9 => "September"
  | 10 => "October"
  | 11 => "November"
  | 12 => "December"
  | _ => ""

/-- Days in a Gregorian month (with the leap-year rule), for `parseISO`
validity checking. -/
def daysInMonth (y m : Nat) : Nat :=
  if m = 2 then
    if y % 4 = 0 ∧ (y % 100 ≠ 0 ∨ y % 400 = 0) then 29 else 28
  else if m = 4 ∨ m = 6 ∨ m = 9 ∨ m = 11 then 30
  else 31

/-- Parse a `YYYY-MM-DD` string into `(year, month, day)`, rejecting
malformed or out-of-range dates as `parseISO`/`isValid` do. -/
def parseISOdate (s : String) : Option (Nat × Nat × Nat) :=
  match s.toList with
  | [y1, y2, y3, y4, '-', m1, m2, '-', d1, d2] =>
    if ([y1, y2, y3, y4, m1, m2, d1, d2].all (fun c => c.isDigit)) then
      let y := natOfDigits [y1, y2, y3, y4]
      let m := natOfDigits [m1, m2]
      let d := natOfDigits [d1, d2]
      if 1 ≤ m ∧ m ≤ 12 ∧ 1 ≤ d ∧ d ≤ daysInMonth y m then some (y, m, d) else none
    else none
  | _ => none

/-- `formatDate`: `MMMM d, yyyy` for a valid stored date, `""` otherwise. -/
def formatDate (s : String) : String :=
  match parseISOdate s with
  | some (y, m, d) =>
    monthName m ++ " " ++ String.mk (natChars d) ++ ", " ++ String.mk (padChars 4 (natChars y))
  | none => ""

/-- Insert a thousands separator after every third digit, working over the
reversed digit list; `k` counts digits emitted since the last separator. -/
def groupRev : List Char → Nat → List Char
  | [], _ => []
  | c :: cs, k =>
    if k = 3 then ',' :: c :: groupRev cs 1
    else c :: groupRev cs (k + 1)

/-- Group a big-endian digit list with `en-US` thousands separators. -/
def groupDigits (cs : List Char) : List Char :=
  (groupRev cs.reverse 0).reverse

/-- `formatCurrency`: integer minor units to an `en-US` USD string, e.g.
`120000 ↦ "$1,200.00"`. -/
def formatCurrency (amount : Int) : String :=
  let a := amount.natAbs
  let sign := if amount < 0 then "-$" else "$"
  sign ++ String.mk (groupDigits (natChars (a / 100))) ++ "." ++
    String.mk (padChars 2 (natChars (a % 100)))

/-! ### Document renderer (server/pdf.ts) -/

/-- One row of the invoice line-items table: the four `doc.text` cells. -/
structure LineItem where
  description : String
  rate : String
  quantity : String
  amount : String
deriving DecidableEq

/-- Numeric sort key of a stored date: `new Date(s).getTime()` is strictly
monotone in the calendar date, so the order it induces on valid `YYYY-MM-DD`
strings is the order of `y * 10000 + m * 100 + d`. -/
def dateKey (s : String) : Nat :=
  match parseISOdate s with
  | some (y, m, d) => y * 10000 + m * 100 + d
  | none => 0

/-- Stable insertion of a workday into a date-ascending list (equal keys keep
their original relative order, as the ES2019 stable `Array.prototype.sort`). -/
def insertByDate (w : Workday) : List Workday → List Workday
  | [] => [w]
  | x :: xs => if dateKey w.date < dateKey x.date then w :: x :: xs else x :: insertByDate w xs

/-- `[...workdays].sort((a, b) => dateTime a - dateTime b)`: a stable
ascending sort by date. -/
def sortWorkdays (ws : List Workday) : List Workday :=
  ws.foldr insertByDate []

/-- The line-items table of `generateInvoicePDF`: for a `daily_rate` project
one row per element of the workday list it was handed, sorted ascending by
date; otherwise the single fixed-price row. -/
def lineItemRows (project : Project) (workdays : List Workday) : List LineItem :=
  if project.type = "daily_rate" then
    (sortWorkdays workdays).map (fun w =>
      { description := "Daily Rate - " ++ formatDate w.date
        rate := formatCurrency project.rate
        quantity := "1"
        amount := formatCurrency project.rate })
  else
    [{ description := project.name ++ " - Fixed Price"
       rate := formatCurrency project.rate
       quantity := "1"
       amount := formatCurrency project.rate }]

/-- The default notes string of the PDF. -/
def defaultNotes : String :=
  "Thank you for your business! Payment is due within 14 days of invoice date."

/-- The text content of `generateInvoicePDF`, one entry per `doc.text` call
in source order (positions and font sizes are layout, not content). -/
def renderInvoiceLines (invoice : Invoice) (client : Client) (project : Project)
    (workdays : List Workday) : List String :=
  ["INVOICE", "#" ++ invoice.invoiceNumber,
   "FreelanceFlow", "123 Main Street", "New York, NY 10001", "contact@freelanceflow.com",
   "Bill To:", client.companyName]
  ++ (match client.contactPerson with
      | some p => ["Attn: " ++ p]
      | none => [])
  ++ (match client.address with
      | some a => [a]
      | none => [])
  ++ [client.billingEmail,
      "Invoice Date:", formatDate invoice.invoiceDate,
      "Due Date:", formatDate invoice.dueDate,
      "Project:", project.name,
      "Amount Due:", formatCurrency invoice.amount,
      "Description", "Rate", "Quantity", "Amount"]
  ++ ((lineItemRows project workdays).map
        (fun r => [r.description, r.rate, r.quantity, r.amount])).flatten
  ++ ["Subtotal:", formatCurrency invoice.amount,
      "Tax (0%):", "$0.00",
      "Total:", formatCurrency invoice.amount,
      "Notes:",
      (match invoice.notes with
       | some n => if n = "" then defaultNotes else n
       | none => defaultNotes),
      "Please make payment via bank transfer to the following account:",
      "Bank: Example Bank",
      "Account Name: FreelanceFlow Inc.",
      "Account Number: XXXX-XXXX-XXXX-1234"]

/-! ### The PDF route (server/routes.ts, GET /api/invoices/:id/pdf) -/

/-- `getWorkdaysByProjectId`. -/
def getWorkdaysByProjectId (st : StorageState) (pid : Nat) : List Workday :=
  st.workdays.filter (fun w => w.projectId = pid)

/-- The workday list the PDF route hands to `generateInvoicePDF`:
`invoice.workdaysIds.map(wdId => storage.getWorkdaysByProjectId(project.id))`
followed by `.flat()`.  The mapped binder `wdId` is ignored by the source, so
every workday of the project is fetched once per covered id. -/
def fetchInvoiceWorkdays (st : StorageState) (invoice : Invoice) (project : Project) :
    List Workday :=
  (invoice.workdaysIds.map (fun _wdId => getWorkdaysByProjectId st project.id)).flatten

/-! ### The client-to-server invoice generation flow -/

/-- Lift the posted payload to the storage insert type (the route adds no
invoice number when the body has none, `POST /api/invoices` then validates
and calls `createInvoice`; the status column defaults to `"pending"`). -/
def toInsertInvoice (inp : CreateInvoiceInput) : InsertInvoice :=
  { invoiceNumber := none
    projectId := inp.projectId
    clientId := inp.clientId
    amount := inp.amount
    status := "pending"
    invoiceDate := inp.invoiceDate
    dueDate := inp.dueDate
    workdaysIds := inp.workdaysIds
    notes := some inp.notes }

/-- The end-to-end generation flow: when the client handler aborts, no
request is posted and storage is unchanged; otherwise the payload is
inserted via `createInvoice`. -/
def generateInvoiceFlow (st : StorageState) (year : Nat) (project : Option Project)
    (client : Option Client) (workdays : List Workday) (selectedDays : List String)
    (invoiceDate dueDate : String) : StorageState :=
  match handleGenerateInvoice project client workdays selectedDays invoiceDate dueDate with
  | none => st
  | some inp => (createInvoice st year (toInsertInvoice inp)).1

/-! ### Concrete instances used by witnesses and counterexamples -/

/-- A daily-rate project at $200.00/day. -/
def pDaily : Project :=
  { id := 1, name := "Website Revamp", clientId := 1, type := "daily_rate", rate := 20000,
    startDate := none, endDate := none, status := "open", description := none }

/-- A fixed-price project at $5000.00. -/
def pFixed : Project :=
  { id := 2, name := "Logo Design", clientId := 1, type := "fixed_price", rate := 500000,
    startDate := none, endDate := none, status := "open", description := none }

/-- A sample client. -/
def cAcme : Client :=
  { id := 1, companyName := "Acme Co", contactPerson := none, emails := ["ap@acme.test"],
    billingEmail := "ap@acme.test", phone := none, address := none, notes := none }

/-- Workday 1 of project 1. -/
def wJan1 : Workday := { id := 1, projectId := 1, date := "2025-01-01" }

/-- Workday 2 of project 1. -/
def wJan2 : Workday := { id := 2, projectId := 1, date := "2025-01-02" }

/-- An invoice whose number is in the allocator's format. -/
def invSeven : Invoice :=
  { id := 1, invoiceNumber := "INV-2025-007", projectId := 1, clientId := 1, amount := 140000,
    status := "pending", invoiceDate := "2025-03-01", dueDate := "2025-03-15",
    workdaysIds := [], notes := none }

/-- A MemStorage state whose latest invoice is `INV-2025-007` but whose
private counter still stands at 1 (reachable by creating that invoice with a
caller-supplied number, which never advances the counter). -/
def memStSeven : MemStorageState := { invoices := [invSeven], invoiceCount := 1 }

/-- The empty storage state. -/
def stEmpty : StorageState := { clients := [], projects := [], workdays := [], invoices := [] }

/-- An invoice insert payload carrying the empty string as its number. -/
def inpEmptyNumber : InsertInvoice :=
  { invoiceNumber := some "", projectId := 1, clientId := 1, amount := 20000,
    status := "pending", invoiceDate := "2025-03-01", dueDate := "2025-03-15",
    workdaysIds := [1], notes := none }

/-- An invoice insert payload carrying a caller-chosen number. -/
def inpCustomNumber : InsertInvoice :=
  { invoiceNumber := some "CUSTOM-42", projectId := 1, clientId := 1, amount := 20000,
    status := "pending", invoiceDate := "2025-03-01", dueDate := "2025-03-15",
    workdaysIds := [1], notes := none }

/-- An invoice of project 1 covering only workday 1. -/
def invCovOne : Invoice :=
  { id := 2, invoiceNumber := "INV-2025-002", projectId := 1, clientId := 1, amount := 20000,
    status := "pending", invoiceDate := "2025-03-01", dueDate := "2025-03-15",
    workdaysIds := [1], notes := none }

/-- An invoice of project 1 covering workdays 1 and 2. -/
def invCovBoth : Invoice :=
  { id := 3, invoiceNumber := "INV-2025-003", projectId := 1, clientId := 1, amount := 40000,
    status := "pending", invoiceDate := "2025-03-01", dueDate := "2025-03-15",
    workdaysIds := [1, 2], notes := none }

/-- A second client. -/
def cBeta : Client :=
  { id := 2, companyName := "Beta LLC", contactPerson := none, emails := ["b@beta.test"],
    billingEmail := "b@beta.test", phone := none, address := none, notes := none }

/-- A project of the second client. -/
def pBeta : Project :=
  { id := 3, name := "Beta Site", clientId := 2, type := "daily_rate", rate := 10000,
    startDate := none, endDate := none, status := "open", description := none }

/-- A workday of the second client's project. -/
def wBeta : Workday := { id := 9, projectId := 3, date := "2025-02-01" }

/-- An invoice of the second client. -/
def invBeta : Invoice :=
  { id := 5, invoiceNumber := "INV-2025-005", projectId := 3, clientId := 2, amount := 10000,
    status := "pending", invoiceDate := "2025-03-01", dueDate := "2025-03-15",
    workdaysIds := [9], notes := none }

/-- A populated storage state over two clients. -/
def stTwoClients : StorageState :=
  { clients := [cAcme, cBeta], projects := [pDaily, pBeta],
    workdays := [wJan1, wJan2, wBeta], invoices := [invCovOne, invCovBoth, invBeta] }

/-- A workday store holding workdays 1 and 2 with the next fresh id. -/
def storeTwoDays : WorkdayStore := { rows := [wJan1, wJan2], nextId := 3 }

/-- A storage state holding only invoice `invSeven`. -/
def stNine : StorageState := { clients := [], projects := [], workdays := [], invoices := [invSeven] }

/-- A workday of the fixed-price project. -/
def wFix : Workday := { id := 7, projectId := 2, date := "2025-01-05" }

/-! ### Helper lemmas -/

theorem spanDigits_all (xs : List Char) (h : ∀ c ∈ xs, c.isDigit = true) :
    spanDigits xs = (xs, []) := by
  induction xs with
  | nil => rfl
  | cons c cs ih =>
    have hc : c.isDigit = true := h c (List.mem_cons_self c cs)
    have ih' := ih (fun x hx => h x (List.mem_cons_of_mem c hx))
    simp [spanDigits, hc, ih']

theorem spanDigits_append_stop (xs ys : List Char) (y : Char)
    (hxs : ∀ c ∈ xs, c.isDigit = true) (hy : y.isDigit = false) :
    spanDigits (xs ++ y :: ys) = (xs, y :: ys) := by
  induction xs with
  | nil => simp [spanDigits, hy]
  | cons c cs ih =>
    have hc : c.isDigit = true := hxs c (List.mem_cons_self c cs)
    have ih' := ih (fun x hx => hxs x (List.mem_cons_of_mem c hx))
    simp [spanDigits, hc, ih']

theorem nodup_map_inj {α β : Type} {f : α → β} {l : List α}
    (h : (l.map f).Nodup) {a b : α} (ha : a ∈ l) (hb : b ∈ l) (hfab : f a = f b) :
    a = b := by
  induction l with
  | nil => cases ha
  | cons x xs ih =>
    rw [List.map_cons, List.nodup_cons] at h
    rcases List.mem_cons.mp ha with rfl | ha' <;> rcases List.mem_cons.mp hb with rfl | hb'
    · rfl
    · exact absurd (hfab ▸ List.mem_map_of_mem f hb') h.1
    · exact absurd (hfab ▸ List.mem_map_of_mem f ha') h.1
    · exact ih h.2 ha' hb'

theorem searchInv_canonical (ys zs : List Char)
    (hys : ∀ c ∈ ys, c.isDigit = true) (hysne : ys ≠ [])
    (hzs : ∀ c ∈ zs, c.isDigit = true) (hzsne : zs ≠ []) :
    searchInv ('I' :: 'N' :: 'V' :: '-' :: (ys ++ '-' :: zs)) = some zs := by
  have h1 : spanDigits (ys ++ '-' :: zs) = (ys, '-' :: zs) :=
    spanDigits_append_stop ys zs '-' hys (by decide)
  have h2 : spanDigits zs = (zs, []) := spanDigits_all zs hzs
  simp [searchInv, matchInvAt, h1, h2, hysne, hzsne]

theorem stringMk_cons_ne_empty (c : Char) (cs : List Char) : String.mk (c :: cs) ≠ "" := by
  intro h
  simpa using congrArg String.data h

/-! ### Claim C2: the invoice numbering allocator -/

/-- Claim C2 (amended to `DatabaseStorage.getNextInvoiceNumber`, the
allocator of the storage class the server exports): if the most recently
created invoice's number matches `INV-<digits>-<digits>`, the allocation
returns `INV-<currentYear>-<pad3(parsed trailing group + 1)>` with the year
taken from the clock (no reset at a year boundary); with no prior invoice,
or a number the pattern does not match, the sequence is 1; the sequence is
zero-padded to a minimum width of 3.  (`MemStorage.getNextInvoiceNumber`
does not have this property; see the counterexample.) -/
theorem claim_C2_allocator_amended (year : Nat) :
    (∀ (inv : Invoice) (ys zs : List Char),
        (∀ c ∈ ys, c.isDigit = true) → ys ≠ [] →
        (∀ c ∈ zs, c.isDigit = true) → zs ≠ [] →
        inv.invoiceNumber = String.mk ('I' :: 'N' :: 'V' :: '-' :: (ys ++ '-' :: zs)) →
        getNextInvoiceNumber (some inv) year = mkInvoiceNumber year (natOfDigits zs + 1)) ∧
    getNextInvoiceNumber none year = mkInvoiceNumber year 1 ∧
    (∀ inv : Invoice, searchInv inv.invoiceNumber.toList = none →
        getNextInvoiceNumber (some inv) year = mkInvoiceNumber year 1) := by
  refine ⟨?_, rfl, ?_⟩
  · intro inv ys zs hys hysne hzs hzsne hnum
    have hne : inv.invoiceNumber ≠ "" := by
      rw [hnum]; exact stringMk_cons_ne_empty _ _
    have hsearch : searchInv inv.invoiceNumber.data = some zs := by
      rw [hnum]
      exact searchInv_canonical ys zs hys hysne hzs hzsne
    simp [getNextInvoiceNumber, mkInvoiceNumber, hne, hsearch]
  · intro inv hsearch
    simp only [String.toList] at hsearch
    by_cases hne : inv.invoiceNumber = "" <;>
      simp [getNextInvoiceNumber, mkInvoiceNumber, hne, hsearch]

/-- Witness for claim C2: the spec's own example, with the year-boundary
behaviour — latest `INV-2025-007`, allocated in year 2026, yields
`INV-2026-008`. -/
theorem claim_C2_witness : getNextInvoiceNumber (some invSeven) 2026 = "INV-2026-008" := by
  have h :=
    (claim_C2_allocator_amended 2026).1 invSeven ['2', '0', '2', '5'] ['0', '0', '7']
      (by decide) (by decide) (by decide) (by decide) (by decide)
  rw [h]; decide

/-- Counterexample for claim C2 as frozen: `MemStorage.getNextInvoiceNumber`
is also an allocation by `getNextInvoiceNumber`, and on a state whose most
recently created invoice (highest id) carries the matching number
`INV-2025-007` while the private counter stands at 1, it returns
`INV-2025-001`, not the `INV-2025-008` the claim requires. -/
theorem claim_C2_counterexample :
    latestInvoice memStSeven.invoices = some invSeven ∧
    searchInv invSeven.invoiceNumber.toList = some ['0', '0', '7'] ∧
    (memGetNextInvoiceNumber 2025 memStSeven).1 = "INV-2025-001" ∧
    "INV-2025-001" ≠ "INV-2025-008" := by
  refine ⟨rfl, by decide, by decide, by decide⟩

/-! ### Claim C10: createInvoice and the allocator -/

/-- Claim C10 (amended): `DatabaseStorage.createInvoice` persists a supplied
non-empty `invoiceNumber` verbatim, with no format check; the allocator is
invoked exactly when the field is JavaScript-falsy, i.e. absent **or the
empty string** (the frozen claim said only "absent").  The inserted row is
the returned invoice, appended to the table. -/
theorem claim_C10_createInvoice_amended (st : StorageState) (year : Nat) (inp : InsertInvoice) :
    (∀ s : String, inp.invoiceNumber = some s → s ≠ "" →
        (createInvoice st year inp).2.invoiceNumber = s) ∧
    (inp.invoiceNumber = none ∨ inp.invoiceNumber = some "" →
        (createInvoice st year inp).2.invoiceNumber =
          getNextInvoiceNumber (latestInvoice st.invoices) year) ∧
    (createInvoice st year inp).1.invoices = st.invoices ++ [(createInvoice st year inp).2] := by
  refine ⟨?_, ?_, rfl⟩
  · intro s hs hne
    simp [createInvoice, jsTruthy, hs, hne]
  · rintro (h | h) <;> simp [createInvoice, jsTruthy, h]

/-- Witness for claim C10: a caller-supplied number `CUSTOM-42` (which does
not even match the allocator's format) is persisted verbatim. -/
theorem claim_C10_witness :
    (createInvoice stEmpty 2025 inpCustomNumber).2.invoiceNumber = "CUSTOM-42" :=
  (claim_C10_createInvoice_amended stEmpty 2025 inpCustomNumber).1 "CUSTOM-42" rfl (by decide)

/-- Counterexample for claim C10 as frozen: with `invoiceNumber` present but
equal to `""`, the field is *not* absent, yet the allocator is consulted and
its result — not the supplied string — is persisted. -/
theorem claim_C10_counterexample :
    inpEmptyNumber.invoiceNumber = some "" ∧
    (createInvoice stEmpty 2025 inpEmptyNumber).2.invoiceNumber = "INV-2025-001" ∧
    "INV-2025-001" ≠ "" := by
  refine ⟨rfl, by decide, by decide⟩

/-! ### Claim C9: status update is a frame on the other fields -/

/-- Claim C9: `updateInvoiceStatus` writes only the `status` column: every
invoice row after the update corresponds to a row before it agreeing on id,
number, project/client references, amount, dates, workday-id list and notes;
the row with the updated id gets the new status and every other row is
untouched; the other tables are untouched. -/
theorem claim_C9_updateInvoiceStatus_frame (st : StorageState) (id : Nat) (status : String) :
    (∀ i ∈ st.invoices,
        ∃ i' ∈ (updateInvoiceStatus st id status).1.invoices,
          i'.id = i.id ∧ i'.invoiceNumber = i.invoiceNumber ∧ i'.projectId = i.projectId ∧
          i'.clientId = i.clientId ∧ i'.amount = i.amount ∧ i'.invoiceDate = i.invoiceDate ∧
          i'.dueDate = i.dueDate ∧ i'.workdaysIds = i.workdaysIds ∧ i'.notes = i.notes ∧
          (i.id = id → i'.status = status) ∧ (i.id ≠ id → i' = i)) ∧
    (updateInvoiceStatus st id status).1.clients = st.clients ∧
    (updateInvoiceStatus st id status).1.projects = st.projects ∧
    (updateInvoiceStatus st id status).1.workdays = st.workdays := by
  cases hfind : st.invoices.find? (fun i => i.id = id) with
  | none =>
    have hni : ∀ x ∈ st.invoices, ¬x.id = id := by
      intro x hx
      simpa using List.find?_eq_none.mp hfind x hx
    refine ⟨fun i hi =>
      ⟨i, ?_, rfl, rfl, rfl, rfl, rfl, rfl, rfl, rfl, rfl, ?_, fun _ => rfl⟩, ?_, ?_, ?_⟩
    · simp [updateInvoiceStatus, hfind, hi]
    · intro h; exact absurd h (hni i hi)
    · simp [updateInvoiceStatus, hfind]
    · simp [updateInvoiceStatus, hfind]
    · simp [updateInvoiceStatus, hfind]
  | some inv =>
    refine ⟨fun i hi => ?_, ?_, ?_, ?_⟩
    · refine ⟨if i.id = id then { i with status := status } else i, ?_, ?_⟩
      · simp only [updateInvoiceStatus, hfind]
        exact List.mem_map_of_mem _ hi
      · by_cases h : i.id = id <;> simp [h]
    · simp [updateInvoiceStatus, hfind]
    · simp [updateInvoiceStatus, hfind]
    · simp [updateInvoiceStatus, hfind]

/-- Witness for claim C9: marking invoice 1 of a concrete store as paid
leaves a row with the same amount, number and references. -/
theorem claim_C9_witness :
    ∃ i' ∈ (updateInvoiceStatus stNine 1 "paid").1.invoices,
      i'.id = invSeven.id ∧ i'.invoiceNumber = invSeven.invoiceNumber ∧
      i'.projectId = invSeven.projectId ∧ i'.clientId = invSeven.clientId ∧
      i'.amount = invSeven.amount ∧ i'.invoiceDate = invSeven.invoiceDate ∧
      i'.dueDate = invSeven.dueDate ∧ i'.workdaysIds = invSeven.workdaysIds ∧
      i'.notes = invSeven.notes ∧
      (invSeven.id = 1 → i'.status = "paid") ∧ (invSeven.id ≠ 1 → i' = invSeven) :=
  (claim_C9_updateInvoiceStatus_frame stNine 1 "paid").1 invSeven (by decide)

/-! ### Claim C6: client deletion cascades -/

theorem foldl_deleteProject_projects (L : List Project) (st : StorageState) (p : Project) :
    p ∈ (L.foldl (fun s q => deleteProjectDB s q.id) st).projects ↔
      p ∈ st.projects ∧ ∀ q ∈ L, p.id ≠ q.id := by
  induction L generalizing st with
  | nil => simp
  | cons q L ih =>
    rw [List.foldl_cons, ih]
    simp only [deleteProjectDB, List.mem_filter, List.forall_mem_cons, decide_eq_true_eq]
    tauto

theorem foldl_deleteProject_workdays (L : List Project) (st : StorageState) (w : Workday) :
    w ∈ (L.foldl (fun s q => deleteProjectDB s q.id) st).workdays ↔
      w ∈ st.workdays ∧ ∀ q ∈ L, w.projectId ≠ q.id := by
  induction L generalizing st with
  | nil => simp
  | cons q L ih =>
    rw [List.foldl_cons, ih]
    simp only [deleteProjectDB, List.mem_filter, List.forall_mem_cons, decide_eq_true_eq]
    tauto

theorem foldl_deleteProject_invoices (L : List Project) (st : StorageState) :
    (L.foldl (fun s q => deleteProjectDB s q.id) st).invoices = st.invoices := by
  induction L generalizing st with
  | nil => rfl
  | cons q L ih => rw [List.foldl_cons, ih]; rfl

theorem foldl_deleteProject_clients (L : List Project) (st : StorageState) :
    (L.foldl (fun s q => deleteProjectDB s q.id) st).clients = st.clients := by
  induction L generalizing st with
  | nil => rfl
  | cons q L ih => rw [List.foldl_cons, ih]; rfl

/-- Claim C6 (amended to `DatabaseStorage.deleteClient`, the implementation
the server exports): after `deleteClient(cid)` no project of the client, no
workday of any of the client's projects, no invoice referencing the client
and no client row with that id remains.  (`MemStorage.deleteClient` removes
only the client row; see the counterexample.) -/
theorem claim_C6_deleteClient_amended (st : StorageState) (cid : Nat) :
    (∀ p ∈ (deleteClientDB st cid).projects, p.clientId ≠ cid) ∧
    (∀ i ∈ (deleteClientDB st cid).invoices, i.clientId ≠ cid) ∧
    (∀ c ∈ (deleteClientDB st cid).clients, c.id ≠ cid) ∧
    (∀ w ∈ (deleteClientDB st cid).workdays, ∀ p ∈ st.projects,
        p.clientId = cid → w.projectId ≠ p.id) := by
  refine ⟨?_, ?_, ?_, ?_⟩
  · intro p hp hcl
    have hp' : p ∈ ((st.projects.filter (fun x => x.clientId = cid)).foldl
        (fun s q => deleteProjectDB s q.id) st).projects := by
      simpa [deleteClientDB] using hp
    have h := (foldl_deleteProject_projects _ _ _).mp hp'
    exact h.2 p (List.mem_filter.mpr ⟨h.1, by simpa using hcl⟩) rfl
  · intro i hi
    have hi' : i ∈ (((st.projects.filter (fun x => x.clientId = cid)).foldl
        (fun s q => deleteProjectDB s q.id) st).invoices.filter
          (fun x => x.clientId ≠ cid)) := by
      simpa [deleteClientDB] using hi
    simpa using (List.mem_filter.mp hi').2
  · intro c hc
    have hc' : c ∈ (((st.projects.filter (fun x => x.clientId = cid)).foldl
        (fun s q => deleteProjectDB s q.id) st).clients.filter (fun x => x.id ≠ cid)) := by
      simpa [deleteClientDB] using hc
    simpa using (List.mem_filter.mp hc').2
  · intro w hw p hp hcl
    have hw' : w ∈ ((st.projects.filter (fun x => x.clientId = cid)).foldl
        (fun s q => deleteProjectDB s q.id) st).workdays := by
      simpa [deleteClientDB] using hw
    have h := (foldl_deleteProject_workdays _ _ _).mp hw'
    exact h.2 p (List.mem_filter.mpr ⟨hp, by simpa using hcl⟩)

/-- Witness for claim C6: deleting client 1 from the two-client store leaves
the second client's project, and the theorem applies to it: `pBeta` survives
and indeed does not reference client 1. -/
theorem claim_C6_witness :
    pBeta ∈ (deleteClientDB stTwoClients 1).projects ∧ pBeta.clientId ≠ 1 :=
  ⟨by decide, (claim_C6_deleteClient_amended stTwoClients 1).1 pBeta (by decide)⟩

/-- Counterexample for claim C6 as frozen: `MemStorage.deleteClient` deletes
only the client row.  After deleting client 1, its project, workday and
invoice all remain in storage. -/
theorem claim_C6_counterexample :
    (memDeleteClient stTwoClients 1).2 = true ∧
    (∀ c ∈ (memDeleteClient stTwoClients 1).1.clients, c.id ≠ 1) ∧
    pDaily ∈ (memDeleteClient stTwoClients 1).1.projects ∧ pDaily.clientId = 1 ∧
    wJan1 ∈ (memDeleteClient stTwoClients 1).1.workdays ∧ wJan1.projectId = pDaily.id ∧
    invCovOne ∈ (memDeleteClient stTwoClients 1).1.invoices ∧ invCovOne.clientId = 1 := by
  decide

/-! ### Claim C4: zero workdays on a daily-rate project -/

/-- Claim C4: for a `daily_rate` project with an empty selection,
`handleGenerateInvoice` aborts with the "select at least one workday"
validation error (embedded as `none`): no request is posted, so the
generation flow leaves storage unchanged and no zero-amount invoice is ever
persisted. -/
theorem claim_C4_zero_workdays_rejected (st : StorageState) (year : Nat) (p : Project)
    (c : Client) (ws : List Workday) (d1 d2 : String) (hp : p.type = "daily_rate") :
    handleGenerateInvoice (some p) (some c) ws [] d1 d2 = none ∧
    generateInvoiceFlow st year (some p) (some c) ws [] d1 d2 = st := by
  have h : handleGenerateInvoice (some p) (some c) ws [] d1 d2 = none := by
    simp [handleGenerateInvoice, hp]
  exact ⟨h, by simp [generateInvoiceFlow, h]⟩

/-- Witness for claim C4: the daily-rate sample project with nothing
selected produces no invoice and leaves the two-client store unchanged. -/
theorem claim_C4_witness :
    handleGenerateInvoice (some pDaily) (some cAcme) [wJan1] [] "2025-03-01" "2025-03-15" = none ∧
    generateInvoiceFlow stTwoClients 2025 (some pDaily) (some cAcme) [wJan1] []
      "2025-03-01" "2025-03-15" = stTwoClients :=
  claim_C4_zero_workdays_rejected stTwoClients 2025 pDaily cAcme [wJan1]
    "2025-03-01" "2025-03-15" (by decide)

/-! ### Claim C3: fixed-price invoices -/

/-- Claim C3 (amended): for a `fixed_price` project the generated invoice's
amount is the project rate regardless of the workday selection; but the
workday-id list is built from the selection independently of the billing
mode, so it is empty exactly when no workday's date is selected (in
particular when the project has no workdays) — not unconditionally, as the
frozen claim stated. -/
theorem claim_C3_fixed_price_amended (p : Project) (c : Client) (ws : List Workday)
    (ds : List String) (d1 d2 : String) (hp : p.type = "fixed_price") :
    ∃ inp, handleGenerateInvoice (some p) (some c) ws ds d1 d2 = some inp ∧
      inp.amount = p.rate ∧
      (inp.workdaysIds = [] ↔ ∀ w ∈ ws, w.date ∉ ds) := by
  have hnd : ¬p.type = "daily_rate" := by rw [hp]; decide
  have hsome : handleGenerateInvoice (some p) (some c) ws ds d1 d2 =
      some { projectId := p.id, clientId := c.id, amount := calculateTotal (some p) ds,
             invoiceDate := d1, dueDate := d2,
             workdaysIds :=
               (ws.filter (fun w => ds.any (fun d => d = w.date))).map (fun w => w.id),
             notes := "Invoice for " ++ p.name } := by
    simp [handleGenerateInvoice, hnd]
  refine ⟨_, hsome, by simp [calculateTotal, hnd], ?_⟩
  simp only [List.map_eq_nil_iff, List.filter_eq_nil_iff, List.any_eq_true,
    decide_eq_true_eq, not_exists, not_and]
  constructor
  · intro h w hw hmem
    exact h w hw w.date hmem rfl
  · intro h w hw d hd hde
    exact h w hw (hde ▸ hd)

/-- Witness for claim C3: the fixed-price sample project with an empty
selection yields amount 500000 and an empty workday-id list. -/
theorem claim_C3_witness :
    ∃ inp, handleGenerateInvoice (some pFixed) (some cAcme) [wFix] [] "2025-03-01"
        "2025-03-15" = some inp ∧
      inp.amount = pFixed.rate ∧
      (inp.workdaysIds = [] ↔ ∀ w ∈ [wFix], w.date ∉ ([] : List String)) :=
  claim_C3_fixed_price_amended pFixed cAcme [wFix] [] "2025-03-01" "2025-03-15" (by decide)

/-- Counterexample for claim C3 as frozen: a `fixed_price` project that has
a workday whose date is selected gets that workday's id attached to the
generated invoice — the list is not empty. -/
theorem claim_C3_counterexample :
    pFixed.type = "fixed_price" ∧
    (handleGenerateInvoice (some pFixed) (some cAcme) [wFix] ["2025-01-05"] "2025-03-01"
        "2025-03-15").map CreateInvoiceInput.workdaysIds = some [7] ∧
    some [7] ≠ some ([] : List Nat) := by
  decide

/-! ### Claims C1 and C7: the workday toggle and the rate calculator -/

theorem toggleDateSet_involutive (d : String) (S : Finset String) :
    toggleDateSet d (toggleDateSet d S) = S := by
  by_cases h : d ∈ S
  · have h1 : toggleDateSet d S = S.erase d := by rw [toggleDateSet, if_pos h]
    rw [h1, toggleDateSet, if_neg (Finset.not_mem_erase d S), Finset.insert_erase h]
  · have h1 : toggleDateSet d S = insert d S := by rw [toggleDateSet, if_neg h]
    rw [h1, toggleDateSet, if_pos (Finset.mem_insert_self d S), Finset.erase_insert h]

theorem toggleDateSet_comm (a b : String) (S : Finset String) :
    toggleDateSet a (toggleDateSet b S) = toggleDateSet b (toggleDateSet a S) := by
  by_cases hab : a = b
  · rw [hab]
  · have hba : ¬b = a := fun h => hab h.symm
    by_cases ha : a ∈ S <;> by_cases hb : b ∈ S <;>
      · ext x
        by_cases hxa : x = a <;> by_cases hxb : x = b <;>
          simp [toggleDateSet, ha, hb, hab, hba, hxa, hxb, Finset.mem_erase, Finset.mem_insert]

theorem toggleWorkday_dateSet (s : WorkdayStore) (pid : Nat) (d : String) (H : StoreOK s) :
    storeDateSet (toggleWorkday s pid d) = toggleDateSet d (storeDateSet s) := by
  obtain ⟨hids, hdates, _hfresh⟩ := H
  cases hfind : s.rows.find? (fun w => w.date = d) with
  | some w =>
    have hw : w ∈ s.rows := List.mem_of_find?_eq_some hfind
    have hwd : w.date = d := by simpa using List.find?_some hfind
    have hd : d ∈ storeDateSet s := by
      simp only [storeDateSet, storeDates, List.mem_toFinset, List.mem_map]
      exact ⟨w, hw, hwd⟩
    rw [toggleDateSet, if_pos hd]
    ext a
    simp only [storeDateSet, storeDates, toggleWorkday, hfind, List.mem_toFinset, List.mem_map,
      List.mem_filter, Finset.mem_erase, decide_eq_true_eq, ne_eq]
    constructor
    · rintro ⟨x, ⟨hx, hxid⟩, rfl⟩
      refine ⟨?_, x, hx, rfl⟩
      intro hxd
      exact hxid (congrArg Workday.id (nodup_map_inj hdates hx hw (hxd.trans hwd.symm)))
    · rintro ⟨hne, x, hx, rfl⟩
      refine ⟨x, ⟨hx, ?_⟩, rfl⟩
      intro hid
      exact hne ((congrArg Workday.date (nodup_map_inj hids hx hw hid)).trans hwd)
  | none =>
    have hnd : ∀ x ∈ s.rows, ¬x.date = d := by
      intro x hx
      simpa using List.find?_eq_none.mp hfind x hx
    have hd : d ∉ storeDateSet s := by
      simp only [storeDateSet, storeDates, List.mem_toFinset, List.mem_map, not_exists, not_and]
      exact fun x hx => hnd x hx
    have hset : storeDateSet (toggleWorkday s pid d) = (storeDates s).toFinset ∪ {d} := by
      simp [storeDateSet, storeDates, toggleWorkday, hfind]
    rw [toggleDateSet, if_neg hd, hset, Finset.union_comm, ← Finset.insert_eq]
    rfl

theorem toggleWorkday_StoreOK (s : WorkdayStore) (pid : Nat) (d : String) (H : StoreOK s) :
    StoreOK (toggleWorkday s pid d) := by
  obtain ⟨hids, hdates, hfresh⟩ := H
  cases hfind : s.rows.find? (fun w => w.date = d) with
  | some w =>
    refine ⟨?_, ?_, ?_⟩ <;> simp only [toggleWorkday, hfind]
    · exact hids.sublist (List.Sublist.map _ (List.filter_sublist _))
    · exact hdates.sublist (List.Sublist.map _ (List.filter_sublist _))
    · intro x hx
      exact hfresh x (List.mem_of_mem_filter hx)
  | none =>
    have hnd : ∀ x ∈ s.rows, ¬x.date = d := by
      intro x hx
      simpa using List.find?_eq_none.mp hfind x hx
    refine ⟨?_, ?_, ?_⟩ <;> simp only [toggleWorkday, hfind]
    · rw [List.map_append]
      refine hids.append (List.nodup_singleton _) ?_
      intro a ha hb
      obtain ⟨x, hx, rfl⟩ := List.mem_map.mp ha
      have := hfresh x hx
      simp only [List.map_cons, List.map_nil, List.mem_singleton] at hb
      omega
    · rw [List.map_append]
      refine hdates.append (List.nodup_singleton _) ?_
      intro a ha hb
      obtain ⟨x, hx, rfl⟩ := List.mem_map.mp ha
      simp only [List.map_cons, List.map_nil, List.mem_singleton] at hb
      exact hnd x hx hb
    · intro x hx
      rcases List.mem_append.mp hx with h | h
      · exact Nat.lt_succ_of_lt (hfresh x h)
      · simp only [List.mem_singleton] at h
        rw [h]
        exact Nat.lt_succ_self _

/-- Claim C7: on a well-formed project workday state, toggling the same date
twice returns the set of marked dates to its original state, and the
resulting date set does not depend on the order in which two dates are
toggled. -/
theorem claim_C7_toggle_involutive_and_commutative (s : WorkdayStore) (pid : Nat)
    (H : StoreOK s) :
    (∀ d, storeDateSet (toggleWorkday (toggleWorkday s pid d) pid d) = storeDateSet s) ∧
    (∀ d1 d2, storeDateSet (toggleWorkday (toggleWorkday s pid d1) pid d2) =
        storeDateSet (toggleWorkday (toggleWorkday s pid d2) pid d1)) := by
  constructor
  · intro d
    rw [toggleWorkday_dateSet _ _ _ (toggleWorkday_StoreOK s pid d H),
      toggleWorkday_dateSet _ _ _ H, toggleDateSet_involutive]
  · intro d1 d2
    rw [toggleWorkday_dateSet _ _ _ (toggleWorkday_StoreOK s pid d1 H),
      toggleWorkday_dateSet _ _ _ H,
      toggleWorkday_dateSet _ _ _ (toggleWorkday_StoreOK s pid d2 H),
      toggleWorkday_dateSet _ _ _ H, toggleDateSet_comm]

/-- Witness for claim C7: toggling January 3 twice on the two-workday store
restores the date set, and toggling January 3 and 4 commutes. -/
theorem claim_C7_witness :
    storeDateSet (toggleWorkday (toggleWorkday storeTwoDays 1 "2025-01-03") 1 "2025-01-03") =
      storeDateSet storeTwoDays ∧
    storeDateSet
        (toggleWorkday (toggleWorkday storeTwoDays 1 "2025-01-03") 1 "2025-01-04") =
      storeDateSet
        (toggleWorkday (toggleWorkday storeTwoDays 1 "2025-01-04") 1 "2025-01-03") :=
  ⟨(claim_C7_toggle_involutive_and_commutative storeTwoDays 1
      (by refine ⟨?_, ?_, ?_⟩ <;> decide)).1 "2025-01-03",
   (claim_C7_toggle_involutive_and_commutative storeTwoDays 1
      (by refine ⟨?_, ?_, ?_⟩ <;> decide)).2 "2025-01-03" "2025-01-04"⟩

/-- Claim C1: for a `daily_rate` project with rate `r` and a well-formed
selection of `n` distinct workday dates, `calculateTotal` returns exactly
`r * n`, that value is the amount of the invoice the generation handler
posts, and selecting the same date twice (two toggles) leaves the computed
amount at `r * n` — the selection behaves as a set, never double-counting a
date. -/
theorem claim_C1_daily_rate_amount (p : Project) (c : Client) (ws : List Workday)
    (s : WorkdayStore) (pid : Nat) (d1 d2 : String) (n : Nat)
    (hp : p.type = "daily_rate") (H : StoreOK s) (hn : (storeDates s).length = n) :
    calculateTotal (some p) (storeDates s) = p.rate * n ∧
    (∀ inp, handleGenerateInvoice (some p) (some c) ws (storeDates s) d1 d2 = some inp →
        inp.amount = p.rate * n) ∧
    (∀ d, calculateTotal (some p)
        (storeDates (toggleWorkday (toggleWorkday s pid d) pid d)) = p.rate * n) := by
  have hcalc : calculateTotal (some p) (storeDates s) = p.rate * n := by
    simp [calculateTotal, hp, hn]
  refine ⟨hcalc, ?_, ?_⟩
  · intro inp hinp
    by_cases hz : (storeDates s).length = 0
    · simp [handleGenerateInvoice, hp, hz] at hinp
    · simp only [handleGenerateInvoice, hp, hz, true_and, if_neg, and_false,
        if_false, Option.some.injEq] at hinp
      rw [← hinp]
      exact hcalc
  · intro d
    have H2 : StoreOK (toggleWorkday (toggleWorkday s pid d) pid d) :=
      toggleWorkday_StoreOK _ _ _ (toggleWorkday_StoreOK _ _ _ H)
    have hset : storeDateSet (toggleWorkday (toggleWorkday s pid d) pid d) = storeDateSet s := by
      rw [toggleWorkday_dateSet _ _ _ (toggleWorkday_StoreOK s pid d H),
        toggleWorkday_dateSet _ _ _ H, toggleDateSet_involutive]
    have hlen : (storeDates (toggleWorkday (toggleWorkday s pid d) pid d)).length = n :=
      calc (storeDates (toggleWorkday (toggleWorkday s pid d) pid d)).length
          = (storeDateSet (toggleWorkday (toggleWorkday s pid d) pid d)).card :=
            (List.toFinset_card_of_nodup H2.2.1).symm
        _ = (storeDateSet s).card := by rw [hset]
        _ = (storeDates s).length := List.toFinset_card_of_nodup H.2.1
        _ = n := hn
    simp [calculateTotal, hp, hlen]

/-- Witness for claim C1: the two-workday store on the $200.00/day sample
project yields 40000, also through the generation handler, and toggling
January 3 twice leaves the amount at 40000. -/
theorem claim_C1_witness :
    calculateTotal (some pDaily) (storeDates storeTwoDays) = pDaily.rate * 2 ∧
    (∀ inp, handleGenerateInvoice (some pDaily) (some cAcme) [wJan1, wJan2]
        (storeDates storeTwoDays) "2025-03-01" "2025-03-15" = some inp →
        inp.amount = pDaily.rate * 2) ∧
    (∀ d, calculateTotal (some pDaily)
        (storeDates (toggleWorkday (toggleWorkday storeTwoDays 1 d) 1 d)) = pDaily.rate * 2) :=
  claim_C1_daily_rate_amount pDaily cAcme [wJan1, wJan2] storeTwoDays 1
    "2025-03-01" "2025-03-15" 2 (by decide) (by refine ⟨?_, ?_, ?_⟩ <;> decide) (by decide)

/-! ### Claim C5: line items of the rendered document -/

/-- Claim C5 is violated by the code (code bug): the PDF route maps each
covered workday id to `getWorkdaysByProjectId(project.id)` — the binder
`wdId` is never used — and flattens, so the renderer receives every workday
of the project once per covered id.  For the invoice covering only workday 1
the table gets a row for the uncovered January 2 workday; for the invoice
covering workdays 1 and 2 every row is duplicated. -/
theorem claim_C5_pdf_route_bug :
    invCovOne.workdaysIds = [1] ∧
    (lineItemRows pDaily (fetchInvoiceWorkdays stTwoClients invCovOne pDaily)).map
        LineItem.description =
      ["Daily Rate - January 1, 2025", "Daily Rate - January 2, 2025"] ∧
    invCovBoth.workdaysIds = [1, 2] ∧
    (lineItemRows pDaily (fetchInvoiceWorkdays stTwoClients invCovBoth pDaily)).map
        LineItem.description =
      ["Daily Rate - January 1, 2025", "Daily Rate - January 1, 2025",
       "Daily Rate - January 2, 2025", "Daily Rate - January 2, 2025"] := by
  decide

/-! ### Claim C8: the renderer is deterministic -/

/-- Claim C8: the extracted text content of `generateInvoicePDF` is a pure
function of the invoice, client, project and workday inputs — the embedding
reads no clock and no randomness — so two runs on identical inputs produce
identical text. -/
theorem claim_C8_renderer_deterministic (inv1 inv2 : Invoice) (c1 c2 : Client)
    (p1 p2 : Project) (ws1 ws2 : List Workday)
    (hi : inv1 = inv2) (hc : c1 = c2) (hp : p1 = p2) (hw : ws1 = ws2) :
    renderInvoiceLines inv1 c1 p1 ws1 = renderInvoiceLines inv2 c2 p2 ws2 := by
  rw [hi, hc, hp, hw]

/-- Witness for claim C8: two renders of the sample invoice coincide. -/
theorem claim_C8_witness :
    renderInvoiceLines invCovOne cAcme pDaily [wJan1, wJan2] =
      renderInvoiceLines invCovOne cAcme pDaily [wJan1, wJan2] :=
  claim_C8_renderer_deterministic invCovOne invCovOne cAcme cAcme pDaily pDaily
    [wJan1, wJan2] [wJan1, wJan2] rfl rfl rfl rfl
